import Mathlib

/-!
Verification of the marker-based source-patching engine in
`refactor_pup_cli.py` (repository shuakami/pup).

Text buffers are modelled as `List Char`. Python's substring search
(`str.find`, `in`) is modelled by `findSub` / `findSubFrom` / `containsSub`,
Python slicing `s[a:b]` by `pySlice`, and each patch primitive, the block
extractor, the document-store helpers and the relevant slice of the
orchestrator are translated definition by definition from the source.
Fallible code returns `Except PatchError`.
-/

/-- The single exception class `PatchError(RuntimeError)` of the source;
errors are distinguished by their message, exactly as in the Python code. -/
structure PatchError where
  msg : String
deriving DecidableEq

/-- Python `content.find(pat)` restricted to the found/not-found result:
`some i` when `pat` first occurs at index `i` of `content`, `none` when
`pat` does not occur (`find` returning `-1`).  Like Python,
`findSub content [] = some 0`. -/
def findSub : List Char → List Char → Option Nat
  | [], pat => if pat.isEmpty then some 0 else none
  | c :: rest, pat =>
      if pat.isPrefixOf (c :: rest) then some 0
      else (findSub rest pat).map (· + 1)

/-- Python `content.find(pat, start)` for `start ≤ length`: the first
occurrence of `pat` at an index `≥ start`. -/
def findSubFrom (content pat : List Char) (start : Nat) : Option Nat :=
  (findSub (content.drop start) pat).map (· + start)

/-- Python `pat in content`. -/
def containsSub (content pat : List Char) : Bool :=
  (findSub content pat).isSome

/-- Python slicing `s[a:b]` for `0 ≤ a ≤ b`. -/
def pySlice (l : List Char) (a b : Nat) : List Char :=
  (l.take b).drop a

/-- The idempotency-guard test the four primitives share, the Python idiom
`already_ok_substring and already_ok_substring in content`: an absent or
empty (falsy) guard never fires. -/
def alreadyOk (already_ok_substring : Option (List Char)) (content : List Char) : Bool :=
  match already_ok_substring with
  | none => false
  | some g => !g.isEmpty && containsSub content g

/-- `_replace_once` (refactor_pup_cli.py lines 70-76): replace the first
occurrence of `old` with `new`; guard short-circuit; `PatchError` when
`old` is absent. -/
def _replace_once (content old new : List Char)
    (already_ok_substring : Option (List Char)) : Except PatchError (List Char × Bool) :=
  if alreadyOk already_ok_substring content then .ok (content, false)
  else
    match findSub content old with
    | none => .error ⟨"Expected patch target not found."⟩
    | some i => .ok (content.take i ++ new ++ content.drop (i + old.length), true)

/-- `_insert_after` (lines 79-87): splice `insert` right after the end of the
first occurrence of `anchor`. -/
def _insert_after (content anchor insert : List Char)
    (already_ok_substring : Option (List Char)) : Except PatchError (List Char × Bool) :=
  if alreadyOk already_ok_substring content then .ok (content, false)
  else
    match findSub content anchor with
    | none => .error ⟨"Expected anchor not found for insertion."⟩
    | some idx =>
        .ok (content.take (idx + anchor.length) ++ insert ++ content.drop (idx + anchor.length), true)

/-- `_insert_before` (lines 90-97): splice `insert` right before the first
occurrence of `marker`. -/
def _insert_before (content marker insert : List Char)
    (already_ok_substring : Option (List Char)) : Except PatchError (List Char × Bool) :=
  if alreadyOk already_ok_substring content then .ok (content, false)
  else
    match findSub content marker with
    | none => .error ⟨"Expected marker not found for insertion."⟩
    | some idx => .ok (content.take idx ++ insert ++ content.drop idx, true)

/-- `_replace_between` (lines 100-110): replace from `start_marker`
(inclusive) to `end_marker` (exclusive); the end search starts at the
start marker's position. -/
def _replace_between (content start_marker end_marker replacement : List Char)
    (already_ok_substring : Option (List Char)) : Except PatchError (List Char × Bool) :=
  if alreadyOk already_ok_substring content then .ok (content, false)
  else
    match findSub content start_marker with
    | none => .error ⟨"Start marker not found."⟩
    | some start =>
        match findSubFrom content end_marker start with
        | none => .error ⟨"End marker not found."⟩
        | some e => .ok (content.take start ++ replacement ++ content.drop e, true)

/-! ## Search-model lemmas -/

theorem findSub_some_spec (pat : List Char) :
    ∀ (l : List Char) (i : Nat), findSub l pat = some i →
      pat.isPrefixOf (l.drop i) = true ∧ ∀ j, j < i → pat.isPrefixOf (l.drop j) = false := by
  intro l
  induction l with
  | nil =>
      intro i h
      simp only [findSub] at h
      by_cases he : pat.isEmpty
      · simp only [he, if_pos] at h
        cases h
        refine ⟨?_, by omega⟩
        cases pat with
        | nil => rfl
        | cons a t => simp [List.isEmpty] at he
      · simp [he] at h
  | cons c rest ih =>
      intro i h
      simp only [findSub] at h
      by_cases hp : pat.isPrefixOf (c :: rest) = true
      · simp only [hp, if_pos] at h
        cases h
        exact ⟨hp, by omega⟩
      · rw [if_neg hp] at h
        rcases Option.map_eq_some'.mp h with ⟨i', hi', hadd⟩
        rcases ih i' hi' with ⟨h1, h2⟩
        subst hadd
        constructor
        · simpa [List.drop_succ_cons] using h1
        · intro j hj
          cases j with
          | zero =>
              simpa using Bool.not_eq_true _ ▸ (by simpa using hp)
          | succ j' =>
              have : j' < i' := by omega
              simpa [List.drop_succ_cons] using h2 j' this

theorem findSub_none_spec (pat : List Char) :
    ∀ (l : List Char), findSub l pat = none →
      ∀ j, pat.isPrefixOf (l.drop j) = false := by
  intro l
  induction l with
  | nil =>
      intro h j
      simp only [findSub] at h
      by_cases he : pat.isEmpty
      · simp [he] at h
      · cases pat with
        | nil => simp [List.isEmpty] at he
        | cons a t => simp [List.isPrefixOf]
  | cons c rest ih =>
      intro h j
      simp only [findSub] at h
      by_cases hp : pat.isPrefixOf (c :: rest) = true
      · simp [hp] at h
      · rw [if_neg hp] at h
        have hrest : findSub rest pat = none := by
          cases hr : findSub rest pat with
          | none => rfl
          | some k => simp [hr] at h
        cases j with
        | zero => simpa using Bool.not_eq_true _ ▸ (by simpa using hp)
        | succ j' => simpa [List.drop_succ_cons] using ih hrest j'

theorem findSub_first (pat : List Char) :
    ∀ (l : List Char) (i : Nat), pat.isPrefixOf (l.drop i) = true →
      (∀ j, j < i → pat.isPrefixOf (l.drop j) = false) → findSub l pat = some i := by
  intro l
  induction l with
  | nil =>
      intro i h1 h2
      have hpe : pat = [] := by
        cases pat with
        | nil => rfl
        | cons a t => simp [List.isPrefixOf] at h1
      cases i with
      | zero => simp [findSub, hpe]
      | succ i' =>
          have := h2 0 (by omega)
          rw [List.drop_nil] at h1
          rw [List.drop_zero] at this
          subst hpe
          simp [List.isPrefixOf] at this
  | cons c rest ih =>
      intro i h1 h2
      cases i with
      | zero =>
          rw [List.drop_zero] at h1
          simp [findSub, h1]
      | succ i' =>
          have h0 : pat.isPrefixOf (c :: rest) = false := by
            have := h2 0 (by omega)
            simpa using this
          have hr : findSub rest pat = some i' := by
            apply ih
            · simpa [List.drop_succ_cons] using h1
            · intro j hj
              have := h2 (j + 1) (by omega)
              simpa [List.drop_succ_cons] using this
          simp [findSub, h0, hr]

theorem isPrefixOf_iff_pre : ∀ (p l : List Char), p.isPrefixOf l = true ↔ p <+: l := by
  intro p
  induction p with
  | nil => intro l; simp [List.isPrefixOf]
  | cons a t ih =>
      intro l
      cases l with
      | nil => simp [List.isPrefixOf]
      | cons b l' =>
          simp only [List.isPrefixOf, Bool.and_eq_true, beq_iff_eq, List.cons_prefix_cons]
          exact and_congr Iff.rfl (ih l')

theorem occ_iff_isInfix (pat l : List Char) :
    (∃ j, pat.isPrefixOf (l.drop j) = true) ↔ pat <:+: l := by
  constructor
  · rintro ⟨j, hj⟩
    rcases (isPrefixOf_iff_pre pat (l.drop j)).mp hj with ⟨t, ht⟩
    exact ⟨l.take j, t, by rw [List.append_assoc, ht, List.take_append_drop]⟩
  · rintro ⟨s, t, rfl⟩
    refine ⟨s.length, ?_⟩
    rw [List.append_assoc, List.drop_left]
    exact (isPrefixOf_iff_pre pat (pat ++ t)).mpr (List.prefix_append pat t)

theorem containsSub_iff_isInfix (l pat : List Char) :
    containsSub l pat = true ↔ pat <:+: l := by
  rw [← occ_iff_isInfix]
  constructor
  · intro h
    rcases Option.isSome_iff_exists.mp h with ⟨i, hi⟩
    exact ⟨i, (findSub_some_spec pat l i hi).1⟩
  · rintro ⟨j, hj⟩
    cases hf : findSub l pat with
    | none => exact absurd (findSub_none_spec pat l hf j) (by simp [hj])
    | some i => simp [containsSub, hf]

theorem alreadyOk_eq_false (g : Option (List Char)) (D : List Char)
    (hg : ∀ s, g = some s → ¬ s <:+: D) : alreadyOk g D = false := by
  cases g with
  | none => rfl
  | some s =>
      cases s with
      | nil => exact absurd (show ([] : List Char) <:+: D from List.nil_infix) (hg [] rfl)
      | cons a t =>
          have : containsSub D (a :: t) = false := by
            cases hc : containsSub D (a :: t) with
            | false => rfl
            | true => exact absurd ((containsSub_iff_isInfix D (a :: t)).mp hc) (hg _ rfl)
          simp [alreadyOk, this]

theorem alreadyOk_eq_true (g D : List Char) (hne : g ≠ []) (hocc : g <:+: D) :
    alreadyOk (some g) D = true := by
  have hc : containsSub D g = true := (containsSub_iff_isInfix D g).mpr hocc
  have he : g.isEmpty = false := by
    cases g with
    | nil => exact absurd rfl hne
    | cons a t => rfl
  simp [alreadyOk, hc, he]

theorem findSubFrom_some_spec (l pat : List Char) (s e : Nat)
    (h : findSubFrom l pat s = some e) :
    s ≤ e ∧ pat.isPrefixOf (l.drop e) = true ∧
      ∀ j, j < e → s ≤ j → pat.isPrefixOf (l.drop j) = false := by
  rcases Option.map_eq_some'.mp h with ⟨i, hi, he⟩
  rcases findSub_some_spec pat (l.drop s) i hi with ⟨h1, h2⟩
  subst he
  refine ⟨by omega, ?_, ?_⟩
  · rw [List.drop_drop] at h1
    have hc : s + i = i + s := by omega
    rwa [hc] at h1
  · intro j hj hsj
    have := h2 (j - s) (by omega)
    rw [List.drop_drop] at this
    have hjs : s + (j - s) = j := by omega
    rwa [hjs] at this

theorem findSubFrom_none_spec (l pat : List Char) (s : Nat)
    (h : findSubFrom l pat s = none) :
    ∀ j, s ≤ j → pat.isPrefixOf (l.drop j) = false := by
  intro j hsj
  have hn : findSub (l.drop s) pat = none := by
    cases hf : findSub (l.drop s) pat with
    | none => rfl
    | some i => simp [findSubFrom, hf] at h
  have := findSub_none_spec pat (l.drop s) hn (j - s)
  rw [List.drop_drop] at this
  have hjs : s + (j - s) = j := by omega
  rwa [hjs] at this

theorem findSubFrom_first (l pat : List Char) (s e : Nat) (hse : s ≤ e)
    (h1 : pat.isPrefixOf (l.drop e) = true)
    (h2 : ∀ j, j < e → s ≤ j → pat.isPrefixOf (l.drop j) = false) :
    findSubFrom l pat s = some e := by
  have hfind : findSub (l.drop s) pat = some (e - s) := by
    apply findSub_first
    · rw [List.drop_drop]
      have hes : s + (e - s) = e := by omega
      rwa [hes]
    · intro k hk
      have := h2 (s + k) (by omega) (by omega)
      rwa [← List.drop_drop] at this
  simp only [findSubFrom, hfind, Option.map_some']
  congr 1
  omega

/-! ## Block extractor (`_extract_format_text_function`, lines 113-138) -/

/-- The start marker `"function formatText"`. -/
def fmtStartPat : List Char := "function formatText".toList

/-- First distinguishing-marker candidate, `"return lines.join('\\n');"`
(the two-character escape `\n` is literal text of the target document). -/
def fmtCand1 : List Char := "return lines.join('\\n');".toList

/-- Second candidate, the double-quoted variant. -/
def fmtCand2 : List Char := "return lines.join(\"\\n\");".toList

/-- The LF block-terminator pattern `"\n}\n"`. -/
def lfTermPat : List Char := '\n' :: '\x7d' :: '\n' :: []

/-- The CRLF block-terminator pattern `"\r\n}\r\n"`. -/
def crlfTermPat : List Char := '\r' :: '\n' :: '\x7d' :: '\r' :: '\n' :: []

/-- The candidate loop of lines 123-127: try each candidate in order with
`find(m, start)`, keeping the first hit. -/
def findCandidate (index_js : List Char) (start : Nat) : Option Nat :=
  match findSubFrom index_js fmtCand1 start with
  | some ret => some ret
  | none => findSubFrom index_js fmtCand2 start

/-- `_extract_format_text_function` (lines 113-138): locate
`function formatText`, then a distinguishing marker after it, then scan for
the terminator: first `"\n}\n"` (slice through `end + 3`), else
`"\r\n}\r\n"` (slice through `end + 4`). -/
def _extract_format_text_function (index_js : List Char) : Except PatchError (List Char) :=
  match findSub index_js fmtStartPat with
  | none => .error ⟨"Could not find 'function formatText' in src/index.js (already refactored?)"⟩
  | some start =>
      match findCandidate index_js start with
      | none => .error ⟨"Could not find 'return lines.join(\\n)' marker inside formatText()."⟩
      | some ret =>
          match findSubFrom index_js lfTermPat ret with
          | some e => .ok (pySlice index_js start (e + 3))
          | none =>
              match findSubFrom index_js crlfTermPat ret with
              | some e => .ok (pySlice index_js start (e + 4))
              | none => .error ⟨"Could not find the closing brace of formatText()."⟩

/-! ## Document store -/

/-- The newline normalization inside `_write_text` (lines 50-54): append one
`'\n'` when the text does not already end with one. -/
def _write_text_norm (s : List Char) : List Char :=
  if s.getLast? = some '\n' then s else s ++ ['\n']

/-- The backing store: an association list from path to document content,
most recent write first. -/
abbrev Store := List (List Char × List Char)

/-- Reading a path: the most recently written content, `none` when absent. -/
def lookupStore : Store → List Char → Option (List Char)
  | [], _ => none
  | (k, v) :: rest, p => if k = p then some v else lookupStore rest p

/-- `_write_text p s` as a store operation: record the normalized text. -/
def writeStore (p content : List Char) (store : Store) : Store :=
  (p, _write_text_norm content) :: store

/-! ## Backup (`_backup_file`, lines 57-63) with the pathlib name calculus -/

/-- A wall-clock instant, the data `datetime.now()` supplies to
`strftime("%Y%m%d-%H%M%S")`. -/
structure Timestamp where
  year : Nat
  month : Nat
  day : Nat
  hour : Nat
  minute : Nat
  second : Nat
deriving DecidableEq

/-- Decimal rendering of `n` left-padded with `'0'` to width `w`. -/
def padNum (w n : Nat) : List Char :=
  let s := Nat.toDigits 10 n
  List.replicate (w - s.length) '0' ++ s

/-- `strftime("%Y%m%d-%H%M%S")`: date, a dash, then time to second
resolution. -/
def formatTs (t : Timestamp) : List Char :=
  padNum 4 t.year ++ padNum 2 t.month ++ padNum 2 t.day ++ ('-' :: []) ++
    padNum 2 t.hour ++ padNum 2 t.minute ++ padNum 2 t.second

/-- `name.rfind('.')`: index of the last dot, if any. -/
def rfindDot (name : List Char) : Option Nat :=
  match List.findIdx? (fun c => c = '.') name.reverse with
  | none => none
  | some k => some (name.length - 1 - k)

/-- `PurePath.suffix` on a final path component: the part from the last dot,
empty when the dot is leading, trailing or absent. -/
def pathSuffix (name : List Char) : List Char :=
  match rfindDot name with
  | none => []
  | some i => if 0 < i ∧ i < name.length - 1 then name.drop i else []

/-- `PurePath.with_suffix(new)` on a final path component (the validation of
`new`, always satisfied at the one call site, is elided): drop the old
suffix, append the new one. -/
def withSuffix (name suffix_new : List Char) : List Char :=
  let old := pathSuffix name
  if old.isEmpty then name ++ suffix_new
  else name.take (name.length - old.length) ++ suffix_new

/-- `_backup_file` (lines 57-63) as a store operation: no-op unless enabled
and present; otherwise `shutil.copy2` the current content to
`p.with_suffix(p.suffix + ".bak." + ts)`. -/
def _backup_file (now : Timestamp) (enabled : Bool) (name : List Char) (store : Store) :
    Option (List Char) × Store :=
  if enabled = false then (none, store)
  else
    match lookupStore store name with
    | none => (none, store)
    | some content =>
        let ts := formatTs now
        let bak := withSuffix name (pathSuffix name ++ (".bak.".toList ++ ts))
        (some bak, (bak, content) :: store)

theorem withSuffix_spec (name extra : List Char) :
    withSuffix name (pathSuffix name ++ extra) = name ++ extra := by
  unfold withSuffix
  cases hr : rfindDot name with
  | none => simp [pathSuffix, hr]
  | some i =>
      by_cases hc : 0 < i ∧ i < name.length - 1
      · have hps : pathSuffix name = name.drop i := by simp [pathSuffix, hr, hc]
        rw [hps]
        have hlen : (name.drop i).length = name.length - i := List.length_drop i name
        have hpos : 0 < (name.drop i).length := by rw [hlen]; omega
        have hne : (name.drop i).isEmpty = false := by
          cases hd : name.drop i with
          | nil => rw [hd] at hpos; simp at hpos
          | cons a t => rfl
        rw [if_neg (by simp [hne])]
        rw [hlen]
        have hi : name.length - (name.length - i) = i := by omega
        rw [hi, ← List.append_assoc, List.take_append_drop]
      · have hps : pathSuffix name = [] := by simp [pathSuffix, hr, hc]
        rw [hps]
        simp

/-! ## Claims about the patch primitives -/

/-- C1, counterexample: the empty string occurs in every buffer, but as a
guard it is falsy, so `_replace_once` with guard `""` on a buffer lacking the
anchor raises instead of returning `(D, changed=false)`. -/
theorem C1_counterexample :
    (([] : List Char) <:+: "ab".toList) ∧
      _replace_once "ab".toList "zz".toList "x".toList (some []) ≠
        Except.ok ("ab".toList, false) := by
  constructor
  · exact ⟨[], "ab".toList, rfl⟩
  · have heq : _replace_once "ab".toList "zz".toList "x".toList (some []) =
        Except.error ⟨"Expected patch target not found."⟩ := rfl
    intro h
    rw [heq] at h
    simp at h

/-- C1 (amended: the guard must be nonempty): for every buffer `D` and every
nonempty guard `G` occurring in `D`, each of the four patch primitives returns
exactly `(D, changed=false)`, the guard short-circuit firing before any anchor
search or edit. -/
theorem C1_guard_idempotence (D G old new ins repl em : List Char)
    (hne : G ≠ []) (hocc : G <:+: D) :
    _replace_once D old new (some G) = .ok (D, false) ∧
    _insert_after D old ins (some G) = .ok (D, false) ∧
    _insert_before D old ins (some G) = .ok (D, false) ∧
    _replace_between D old em repl (some G) = .ok (D, false) := by
  have h := alreadyOk_eq_true G D hne hocc
  refine ⟨?_, ?_, ?_, ?_⟩ <;>
    simp [_replace_once, _insert_after, _insert_before, _replace_between, h]

/-- C1 witness: the guard `"G"` occurs in `"xGy"`, and all four primitives
leave the buffer untouched. -/
theorem C1_guard_idempotence_witness :
    _replace_once "xGy".toList "q".toList "r".toList (some "G".toList) =
        .ok ("xGy".toList, false) ∧
    _insert_after "xGy".toList "q".toList "r".toList (some "G".toList) =
        .ok ("xGy".toList, false) ∧
    _insert_before "xGy".toList "q".toList "r".toList (some "G".toList) =
        .ok ("xGy".toList, false) ∧
    _replace_between "xGy".toList "q".toList "s".toList "r".toList (some "G".toList) =
        .ok ("xGy".toList, false) :=
  C1_guard_idempotence "xGy".toList "G".toList "q".toList "r".toList "r".toList
    "r".toList "s".toList (by decide) (by decide)

/-- C2: when the required anchor does not occur in the buffer and the guard
(if any) is not present, each primitive raises its anchor-not-found
`PatchError` and produces no modified buffer. -/
theorem C2_anchor_not_found (D a new ins repl em : List Char) (g : Option (List Char))
    (hg : ∀ s, g = some s → ¬ s <:+: D) (ha : ¬ a <:+: D) :
    _replace_once D a new g = .error ⟨"Expected patch target not found."⟩ ∧
    _insert_after D a ins g = .error ⟨"Expected anchor not found for insertion."⟩ ∧
    _insert_before D a ins g = .error ⟨"Expected marker not found for insertion."⟩ ∧
    _replace_between D a em repl g = .error ⟨"Start marker not found."⟩ := by
  have h0 := alreadyOk_eq_false g D hg
  have hfind : findSub D a = none := by
    cases hf : findSub D a with
    | none => rfl
    | some i =>
        exact absurd ((occ_iff_isInfix a D).mp ⟨i, (findSub_some_spec a D i hf).1⟩) ha
  refine ⟨?_, ?_, ?_, ?_⟩ <;>
    simp [_replace_once, _insert_after, _insert_before, _replace_between, h0, hfind]

/-- C2 witness: `"zz"` does not occur in `"ab"`; with no guard all four
primitives fail with their anchor-not-found errors. -/
theorem C2_anchor_not_found_witness :
    _replace_once "ab".toList "zz".toList "x".toList none =
        .error ⟨"Expected patch target not found."⟩ ∧
    _insert_after "ab".toList "zz".toList "y".toList none =
        .error ⟨"Expected anchor not found for insertion."⟩ ∧
    _insert_before "ab".toList "zz".toList "y".toList none =
        .error ⟨"Expected marker not found for insertion."⟩ ∧
    _replace_between "ab".toList "zz".toList "w".toList "z".toList none =
        .error ⟨"Start marker not found."⟩ :=
  C2_anchor_not_found "ab".toList "zz".toList "x".toList "y".toList "z".toList
    "w".toList none (by intro s hs; cases hs) (by decide)

/-- C6: on the success path (guard not present, anchor present with first
occurrence at `i`), `_replace_once` replaces exactly the first occurrence,
`_insert_after` splices immediately after its end, `_insert_before` splices
immediately before it; all other text is preserved verbatim. -/
theorem C6_first_occurrence_edit (D a new ins : List Char) (g : Option (List Char))
    (hg : ∀ s, g = some s → ¬ s <:+: D) (i : Nat)
    (h1 : a.isPrefixOf (D.drop i) = true)
    (h2 : ∀ j, j < i → a.isPrefixOf (D.drop j) = false) :
    _replace_once D a new g = .ok (D.take i ++ new ++ D.drop (i + a.length), true) ∧
    _insert_after D a ins g = .ok (D.take (i + a.length) ++ ins ++ D.drop (i + a.length), true) ∧
    _insert_before D a ins g = .ok (D.take i ++ ins ++ D.drop i, true) := by
  have h0 := alreadyOk_eq_false g D hg
  have hf : findSub D a = some i := findSub_first a D i h1 h2
  refine ⟨?_, ?_, ?_⟩ <;> simp [_replace_once, _insert_after, _insert_before, h0, hf]

/-- C6 witness: in `"abcabc"` the first `"b"` is at index 1; only it is
edited, the second `"b"` is untouched. -/
theorem C6_first_occurrence_edit_witness :
    _replace_once "abcabc".toList "b".toList "X".toList none =
        .ok ("abcabc".toList.take 1 ++ "X".toList ++ "abcabc".toList.drop 2, true) ∧
    _insert_after "abcabc".toList "b".toList "X".toList none =
        .ok ("abcabc".toList.take 2 ++ "X".toList ++ "abcabc".toList.drop 2, true) ∧
    _insert_before "abcabc".toList "b".toList "X".toList none =
        .ok ("abcabc".toList.take 1 ++ "X".toList ++ "abcabc".toList.drop 1, true) :=
  C6_first_occurrence_edit "abcabc".toList "b".toList "X".toList "X".toList none
    (by intro s hs; cases hs) 1 (by decide) (by decide)

/-- C10: a guard of the empty string behaves exactly as no guard at all: the
truthiness test fires before the membership test, so each primitive proceeds
to its normal anchor search. -/
theorem C10_empty_guard_like_none (D old new ins repl sm em : List Char) :
    _replace_once D old new (some []) = _replace_once D old new none ∧
    _insert_after D old ins (some []) = _insert_after D old ins none ∧
    _insert_before D old ins (some []) = _insert_before D old ins none ∧
    _replace_between D sm em repl (some []) = _replace_between D sm em repl none :=
  ⟨rfl, rfl, rfl, rfl⟩

/-! ## Claims about the document store -/

/-- C5, counterexample: writing `"a\n\n"` keeps both trailing newlines, so the
written document does not end in exactly one trailing newline. -/
theorem C5_counterexample :
    _write_text_norm ('a' :: '\n' :: '\n' :: []) = 'a' :: '\n' :: '\n' :: [] ∧
    ¬ ((('a' :: '\n' :: '\n' :: []) : List Char).getLast? = some '\n' ∧
        (('a' :: '\n' :: '\n' :: []) : List Char).dropLast.getLast? ≠ some '\n') := by
  decide

/-- C5 (amended): every successful write leaves the document ending in at
least one trailing newline: exactly one is appended when the input lacks one,
and the input is otherwise written unchanged, extra pre-existing trailing
newlines preserved. -/
theorem C5_write_trailing_newline (s : List Char) :
    (_write_text_norm s).getLast? = some '\n' ∧
    (s.getLast? = some '\n' → _write_text_norm s = s) ∧
    (s.getLast? ≠ some '\n' → _write_text_norm s = s ++ ['\n']) := by
  unfold _write_text_norm
  by_cases h : s.getLast? = some '\n'
  · rw [if_pos h]
    exact ⟨h, fun _ => rfl, fun hn => absurd h hn⟩
  · rw [if_neg h]
    refine ⟨?_, fun hc => absurd hc h, fun _ => rfl⟩
    simp [List.getLast?_concat]

theorem findSubFrom_none_of (l pat : List Char) (s : Nat)
    (h : ∀ j, s ≤ j → pat.isPrefixOf (l.drop j) = false) : findSubFrom l pat s = none := by
  cases hx : findSubFrom l pat s with
  | none => rfl
  | some e =>
      rcases findSubFrom_some_spec l pat s e hx with ⟨hse, hpe, _⟩
      rw [h e hse] at hpe
      exact Bool.noConfusion hpe

/-- C3: with the guard not present and `start_marker` first occurring at `s`,
`_replace_between` searches `end_marker` only from `s` onward: when no
occurrence exists at or after `s` it raises the distinct range-not-found
error (even if an occurrence exists strictly before `s`), and when the first
occurrence at or after `s` is at `e` it returns
`D[:s] ++ replacement ++ D[e:]` with `changed=true`, consuming `start_marker`
and preserving `end_marker` and everything after it verbatim. -/
theorem C3_replace_between_range (D sm em repl : List Char) (g : Option (List Char))
    (hg : ∀ s, g = some s → ¬ s <:+: D) (s : Nat)
    (hs1 : sm.isPrefixOf (D.drop s) = true)
    (hs2 : ∀ j, j < s → sm.isPrefixOf (D.drop j) = false) :
    ((∀ j, s ≤ j → em.isPrefixOf (D.drop j) = false) →
        _replace_between D sm em repl g = .error ⟨"End marker not found."⟩) ∧
    (∀ e, s ≤ e → em.isPrefixOf (D.drop e) = true →
        (∀ j, j < e → s ≤ j → em.isPrefixOf (D.drop j) = false) →
        _replace_between D sm em repl g = .ok (D.take s ++ repl ++ D.drop e, true)) ∧
    (⟨"End marker not found."⟩ : PatchError) ≠ ⟨"Start marker not found."⟩ := by
  have h0 := alreadyOk_eq_false g D hg
  have hf : findSub D sm = some s := findSub_first sm D s hs1 hs2
  refine ⟨?_, ?_, by decide⟩
  · intro hnone
    have hn : findSubFrom D em s = none := findSubFrom_none_of D em s hnone
    simp [_replace_between, h0, hf, hn]
  · intro e hse hpe hfirst
    have he : findSubFrom D em s = some e := findSubFrom_first D em s e hse hpe hfirst
    simp [_replace_between, h0, hf, he]

/-- C3 witness: in `"]s]x"` the start marker `"s"` is at index 1; the end
marker `"]"` also occurs at index 0, before the start marker, but the match
is the occurrence at index 2. -/
theorem C3_replace_between_range_witness :
    _replace_between "]s]x".toList "s".toList "]".toList "R".toList none =
        .ok ("]s]x".toList.take 1 ++ "R".toList ++ "]s]x".toList.drop 2, true) :=
  (C3_replace_between_range "]s]x".toList "s".toList "]".toList "R".toList none
      (by intro s hs; cases hs) 1 (by decide) (by decide)).2.1 2
    (by decide) (by decide) (by decide)

/-! ## Claims about the block extractor -/

/-- A small document holding a complete `formatText` function: the candidate
marker occurs at index 40 and the LF terminator `"\n}\n"` at index 64. -/
def sampleIndexJs : List Char :=
  "function formatText(res, startTime) \x7b\n  return lines.join('\\n');\n\x7d\n".toList

/-- C4, counterexample: `sampleIndexJs` contains no blank line at all (no
`"\n\n"` and no carriage return), so the claimed terminator — a single blank
line followed by a lone closing-brace line — does not occur, yet extraction
succeeds and returns the whole function text: the pattern the code scans for
is a single newline followed by a lone closing-brace line. -/
theorem C4_counterexample :
    _extract_format_text_function sampleIndexJs = .ok sampleIndexJs ∧
    containsSub sampleIndexJs ('\n' :: '\n' :: []) = false ∧
    containsSub sampleIndexJs ('\r' :: []) = false := by
  refine ⟨rfl, by decide, by decide⟩

/-- C4 (amended): once the start marker first occurs at `s` and the candidate
loop matches a distinguishing marker at `r`, the extractor scans from `r` for
a newline followed by a lone closing-brace line: the LF pattern `"\n}\n"` is
tried over the whole tail first, and the CRLF pattern `"\r\n}\r\n"` only if
the LF pattern never occurs at or after `r`; it raises the
terminator-not-found error when neither occurs; and it returns the substring
from the start marker through the matched pattern's first three (LF) or four
(CRLF) characters — through the brace line's newline for LF, through the
carriage return but not the final line feed for CRLF. -/
theorem C4_extract_block (D : List Char) (s r : Nat)
    (hs1 : fmtStartPat.isPrefixOf (D.drop s) = true)
    (hs2 : ∀ j, j < s → fmtStartPat.isPrefixOf (D.drop j) = false)
    (hr : findCandidate D s = some r) :
    (∀ e, r ≤ e → lfTermPat.isPrefixOf (D.drop e) = true →
        (∀ j, j < e → r ≤ j → lfTermPat.isPrefixOf (D.drop j) = false) →
        _extract_format_text_function D = .ok (pySlice D s (e + 3))) ∧
    ((∀ j, r ≤ j → lfTermPat.isPrefixOf (D.drop j) = false) →
      ∀ e, r ≤ e → crlfTermPat.isPrefixOf (D.drop e) = true →
        (∀ j, j < e → r ≤ j → crlfTermPat.isPrefixOf (D.drop j) = false) →
        _extract_format_text_function D = .ok (pySlice D s (e + 4))) ∧
    ((∀ j, r ≤ j → lfTermPat.isPrefixOf (D.drop j) = false ∧
        crlfTermPat.isPrefixOf (D.drop j) = false) →
      _extract_format_text_function D =
        .error ⟨"Could not find the closing brace of formatText()."⟩) := by
  have hf : findSub D fmtStartPat = some s := findSub_first fmtStartPat D s hs1 hs2
  refine ⟨?_, ?_, ?_⟩
  · intro e hre hpe hfirst
    have he : findSubFrom D lfTermPat r = some e :=
      findSubFrom_first D lfTermPat r e hre hpe hfirst
    simp [_extract_format_text_function, hf, hr, he]
  · intro hnolf e hre hpe hfirst
    have hn : findSubFrom D lfTermPat r = none := findSubFrom_none_of D lfTermPat r hnolf
    have he : findSubFrom D crlfTermPat r = some e :=
      findSubFrom_first D crlfTermPat r e hre hpe hfirst
    simp [_extract_format_text_function, hf, hr, hn, he]
  · intro hboth
    have hn1 : findSubFrom D lfTermPat r = none :=
      findSubFrom_none_of D lfTermPat r (fun j hj => (hboth j hj).1)
    have hn2 : findSubFrom D crlfTermPat r = none :=
      findSubFrom_none_of D crlfTermPat r (fun j hj => (hboth j hj).2)
    simp [_extract_format_text_function, hf, hr, hn1, hn2]

/-- C4 witness: on `sampleIndexJs` the start marker is at 0, the candidate at
40 and the LF terminator at 64, so the extractor returns the slice through
index 67 — the whole document. -/
theorem C4_extract_block_witness :
    _extract_format_text_function sampleIndexJs = .ok (pySlice sampleIndexJs 0 (64 + 3)) :=
  (C4_extract_block sampleIndexJs 0 40 (by decide) (by decide) (by decide)).1 64
    (by decide) (by decide) (by decide)

/-! ## Patch routines for kernel.js and plugin-manager.js -/

/-- Path of the kernel routine's target document. -/
def kernelPath : List Char := "src/core/kernel.js".toList

/-- Path of the plugin-manager routine's target document. -/
def pmPath : List Char := "src/core/plugin-manager.js".toList

/-- Step-1 idempotency probe, `"const NEEDS_ENABLE_DOMAINS"`. -/
def kNeedsProbe : List Char := "const NEEDS_ENABLE_DOMAINS".toList

/-- Step-1 anchor line (line 970). -/
def kAnchorLine : List Char :=
  "const \x7b isRetryableError \x7d = require('../utils/errors');".toList

/-- Step-1 insertion text (lines 978-979). -/
def kInsert1 : List Char :=
  ("\n\n// Shared allowlist to avoid allocating a Set on every CDPClient.enable() call.\nconst NEEDS_ENABLE_DOMAINS = new Set(['Page', 'DOM', 'Runtime', 'Accessibility', 'Network', 'Log', 'Overlay', 'Emulation']);\n").toList

/-- Step-2 probe, `"needsEnable = new Set"`. -/
def kNeedsEnableProbe : List Char := "needsEnable = new Set".toList

/-- Step-3 probe and idempotency guard, `"getCommandInfo(name)"`. -/
def kGetCmdInfoProbe : List Char := "getCommandInfo(name)".toList

/-- Step-3 marker (line 1015). -/
def kRunCommandMarker : List Char := "  async runCommand(name, ctx = \x7b\x7d) \x7b".toList

/-- Step-3 insertion text: the `dedent`-ed method block of lines 1016-1033. -/
def kGetCmdInfoInsert : List Char :=
  ("\n\n/**\n * Get detailed command info for help/introspection.\n * @param \x7bstring\x7d name\n * @returns \x7b\x7bname:string, plugin:string, spec:any\x7d|null\x7d\n */\ngetCommandInfo(name) \x7b\n  const cmd = String(name || '').trim().toLowerCase();\n  if (!cmd) return null;\n  const rec = this._commands.get(cmd);\n  if (!rec) return null;\n  return \x7b name: cmd, plugin: rec.plugin, spec: rec.spec \x7d;\n\x7d\n\n").toList

/-- The in-memory transformation of `_patch_kernel_js` (lines 965-1036).
The regex substitution of step 2 (`pattern.subn(_repl, content, 1)`, lines
985-1010) is taken as the parameter `subn`; `none` stands for a zero
substitution count, which the source turns into a `PatchError`. -/
def _patch_kernel_js_steps (subn : List Char → Option (List Char)) (content0 : List Char) :
    Except PatchError (List Char × Bool) := do
  let (content1, changed1) ←
    if containsSub content0 kNeedsProbe then pure (content0, false)
    else
      match findSub content0 kAnchorLine with
      | none =>
          Except.error ⟨"kernel.js: cannot find isRetryableError require line for insertion."⟩
      | some idx =>
          match findSubFrom content0 ('\n' :: []) idx with
          | none => Except.error ⟨"kernel.js: cannot locate EOL after isRetryableError require."⟩
          | some eol =>
              pure (content0.take (eol + 1) ++ kInsert1 ++ content0.drop (eol + 1), true)
  let (content2, changed2) ←
    if containsSub content1 kNeedsEnableProbe then
      match subn content1 with
      | none => Except.error ⟨"kernel.js: failed to patch CDPClient.enable() allowlist block."⟩
      | some c => pure (c, true)
    else pure (content1, false)
  let (content3, changed3) ←
    if containsSub content2 kGetCmdInfoProbe then pure (content2, false)
    else _insert_before content2 kRunCommandMarker kGetCmdInfoInsert (some kGetCmdInfoProbe)
  pure (content3, changed1 || changed2 || changed3)

/-- `_patch_kernel_js` (lines 962-1039) as a store operation: read the
document, run the in-memory steps, and write once at the end only when
something changed; a `PatchError` escapes before the write, leaving the
store untouched.  `none` models the uncaught OS error of a missing file. -/
def _patch_kernel_js (subn : List Char → Option (List Char)) (store : Store) :
    Option (Except PatchError Bool × Store) :=
  match lookupStore store kernelPath with
  | none => none
  | some content =>
      match _patch_kernel_js_steps subn content with
      | .error e => some (.error e, store)
      | .ok (c, true) => some (.ok true, writeStore kernelPath c store)
      | .ok (_, false) => some (.ok false, store)

/-- Probe and idempotency guard of the plugin-manager routine. -/
def pmProbe : List Char := "listPluginMetas()".toList

/-- Marker of the plugin-manager routine (line 1048). -/
def pmMarker : List Char := "  _isPluginEnabled(name, meta) \x7b".toList

/-- Insertion text: the `dedent`-ed method blocks of lines 1049-1074. -/
def pmInsert : List Char :=
  ("\n\n/**\n * List metas for loaded plugins (for dynamic help/UX).\n * @returns \x7bArray<any>\x7d\n */\nlistPluginMetas() \x7b\n  const metas = Array.from(this._loaded.values()).map((r) => r.meta);\n  metas.sort((a, b) => String(a.name).localeCompare(String(b.name)));\n  return metas;\n\x7d\n\n/**\n * Get meta for a loaded plugin by name.\n * @param \x7bstring\x7d name\n * @returns \x7bany|null\x7d\n */\ngetPluginMeta(name) \x7b\n  const n = String(name || '');\n  const rec = this._loaded.get(n);\n  return rec ? rec.meta : null;\n\x7d\n\n").toList

/-- The in-memory transformation of `_patch_plugin_manager_js`
(lines 1045-1076). -/
def _patch_plugin_manager_js_steps (content : List Char) : Except PatchError (List Char × Bool) :=
  if containsSub content pmProbe then .ok (content, false)
  else
    match _insert_before content pmMarker pmInsert (some pmProbe) with
    | .error e => .error e
    | .ok (c, changed) => .ok (c, false || changed)

/-- `_patch_plugin_manager_js` (lines 1042-1080) as a store operation,
analogous to `_patch_kernel_js`. -/
def _patch_plugin_manager_js (store : Store) : Option (Except PatchError Bool × Store) :=
  match lookupStore store pmPath with
  | none => none
  | some content =>
      match _patch_plugin_manager_js_steps content with
      | .error e => some (.error e, store)
      | .ok (c, true) => some (.ok true, writeStore pmPath c store)
      | .ok (_, false) => some (.ok false, store)

/-- C7: if any primitive step inside the kernel.js or plugin-manager.js
routine raises a `PatchError`, the routine returns that very error and the
backing store exactly as it was — the partially edited in-memory buffer is
never written back, because the routine's single write happens only after
every step has succeeded. -/
theorem C7_no_write_on_failure (subn : List Char → Option (List Char)) (store : Store)
    (ck cp : List Char)
    (hk : lookupStore store kernelPath = some ck)
    (hp : lookupStore store pmPath = some cp) :
    (∀ e, _patch_kernel_js_steps subn ck = .error e →
        _patch_kernel_js subn store = some (.error e, store)) ∧
    (∀ e, _patch_plugin_manager_js_steps cp = .error e →
        _patch_plugin_manager_js store = some (.error e, store)) := by
  constructor
  · intro e he
    simp [_patch_kernel_js, hk, he]
  · intro e he
    simp [_patch_plugin_manager_js, hp, he]

/-- C7 witness: on a store holding unpatchable one-character documents, both
routines fail in their first failing step and return the store unchanged. -/
theorem C7_no_write_on_failure_witness :
    _patch_kernel_js (fun _ => none)
        ((kernelPath, "x".toList) :: (pmPath, "y".toList) :: []) =
      some (.error ⟨"kernel.js: cannot find isRetryableError require line for insertion."⟩,
        (kernelPath, "x".toList) :: (pmPath, "y".toList) :: []) ∧
    _patch_plugin_manager_js ((kernelPath, "x".toList) :: (pmPath, "y".toList) :: []) =
      some (.error ⟨"Expected marker not found for insertion."⟩,
        (kernelPath, "x".toList) :: (pmPath, "y".toList) :: []) := by
  have h := C7_no_write_on_failure (fun _ => none)
    ((kernelPath, "x".toList) :: (pmPath, "y".toList) :: []) "x".toList "y".toList
    (by decide) (by decide)
  exact ⟨h.1 _ rfl, h.2 _ rfl⟩

/-! ## Claims about the backup operation -/

theorem lookup_write_self (p c : List Char) (store : Store) :
    lookupStore (writeStore p c store) p = some (_write_text_norm c) := by
  simp [writeStore, lookupStore]

theorem lookup_write_other (p c q : List Char) (store : Store) (h : p ≠ q) :
    lookupStore (writeStore p c store) q = lookupStore store q := by
  simp [writeStore, lookupStore, h]

/-- C9: the backup operation is a no-op returning nothing when backups are
disabled or the target is absent; otherwise it copies the current content to
the sibling path `<name>.bak.<YYYYMMDD-HHMMSS>` — with `pathlib`'s
`with_suffix(p.suffix + ".bak." + ts)` calculus this is always the full
original name (extension included) plus `".bak."` plus the second-resolution
timestamp — and every other path of the store reads exactly as before. -/
theorem C9_backup_contract (now : Timestamp) (name : List Char) (store : Store) :
    _backup_file now false name store = (none, store) ∧
    (lookupStore store name = none → _backup_file now true name store = (none, store)) ∧
    (∀ c, lookupStore store name = some c →
        _backup_file now true name store =
          (some (name ++ (".bak.".toList ++ formatTs now)),
            (name ++ (".bak.".toList ++ formatTs now), c) :: store)) ∧
    (∀ q, q ≠ name ++ (".bak.".toList ++ formatTs now) →
        lookupStore ((_backup_file now true name store).2) q = lookupStore store q) := by
  refine ⟨rfl, ?_, ?_, ?_⟩
  · intro h
    simp [_backup_file, h]
  · intro c hc
    simp [_backup_file, hc, withSuffix_spec]
  · intro q hq
    unfold _backup_file
    rw [if_neg (by simp)]
    cases hc : lookupStore store name with
    | none => rfl
    | some c =>
        show lookupStore
          ((withSuffix name (pathSuffix name ++ (".bak.".toList ++ formatTs now)), c) :: store) q =
            lookupStore store q
        rw [withSuffix_spec]
        show (if name ++ (".bak.".toList ++ formatTs now) = q then some c else lookupStore store q) =
          lookupStore store q
        rw [if_neg (fun he => hq he.symm)]

/-- C9 witness: with the store holding `src/index.js`, an enabled backup at
`2025-10-12 03:04:05` creates exactly
`src/index.js.bak.20251012-030405` with the same content. -/
theorem C9_backup_contract_witness :
    _backup_file ⟨2025, 10, 12, 3, 4, 5⟩ true "src/index.js".toList
        (("src/index.js".toList, "c".toList) :: []) =
      (some ("src/index.js".toList ++ (".bak.".toList ++ formatTs ⟨2025, 10, 12, 3, 4, 5⟩)),
        ("src/index.js".toList ++ (".bak.".toList ++ formatTs ⟨2025, 10, 12, 3, 4, 5⟩),
          "c".toList) :: ("src/index.js".toList, "c".toList) :: []) ∧
    formatTs ⟨2025, 10, 12, 3, 4, 5⟩ = "20251012-030405".toList :=
  ⟨(C9_backup_contract ⟨2025, 10, 12, 3, 4, 5⟩ "src/index.js".toList
      (("src/index.js".toList, "c".toList) :: [])).2.2.1 "c".toList (by decide), by decide⟩

/-! ## The orchestrator's extract-then-overwrite phase (`main`, lines 1336-1374) -/

/-- Path of the entry document `src/index.js`. -/
def indexPath : List Char := "src/index.js".toList

/-- Path of the generated format-text module. -/
def fmtPath : List Char := "src/cli/format-text.js".toList

/-- Path of `src/plugins/core-navigation.js`. -/
def navPath : List Char := "src/plugins/core-navigation.js".toList

/-- Path of `src/plugins/core-scanner.js`. -/
def scanPath : List Char := "src/plugins/core-scanner.js".toList

/-- Path of `src/cli/writer.js`. -/
def writerPath : List Char := "src/cli/writer.js".toList

/-- Path of `src/cli/serialize.js`. -/
def serializePath : List Char := "src/cli/serialize.js".toList

/-- Path of `src/cli/args.js`. -/
def argsPath : List Char := "src/cli/args.js".toList

/-- Path of `src/cli/banner.js`. -/
def bannerPath : List Char := "src/cli/banner.js".toList

/-- Path of `src/cli/repl.js`. -/
def replPath : List Char := "src/cli/repl.js".toList

/-- Path of `src/cli/help.js`. -/
def helpPath : List Char := "src/cli/help.js".toList

/-- Path of `src/utils/promise-pool.js`. -/
def promisePoolPath : List Char := "src/utils/promise-pool.js".toList

/-- The five paths of the backup loop (lines 1344-1353), in order. -/
def backupRelPaths : List (List Char) :=
  [indexPath, kernelPath, pmPath, navPath, scanPath]

/-- The backup loop of lines 1344-1353: for each path, if it exists, run
`_backup_file` (whose return value the loop discards). -/
def backupAll (now : Timestamp) (enabled : Bool) : List (List Char) → Store → Store
  | [], store => store
  | p :: rest, store =>
      backupAll now enabled rest
        (if (lookupStore store p).isSome then (_backup_file now enabled p store).2 else store)

/-- Python `str.strip()` over the ASCII whitespace the engine's inputs use. -/
def pyIsSpace (c : Char) : Bool :=
  c = ' ' || c = '\t' || c = '\n' || c = '\r' || c = '\x0b' || c = '\x0c'

/-- Python `s.strip()`: drop whitespace from both ends. -/
def pyStrip (l : List Char) : List Char :=
  ((l.dropWhile pyIsSpace).reverse.dropWhile pyIsSpace).reverse

/-- The fallback of line 1371, `"function formatText(){return ''}"`. -/
def defaultFormatTextCode : List Char := "function formatText()\x7breturn ''\x7d".toList

/-- `_write_cli_modules` (lines 141-860) as a store operation.  The literal
module templates are data, not logic, and enter as parameters: `fmtTemplate`
is the f-string template of lines 147-163 around the (stripped) extracted
code, and the seven constant modules are `writerJs` … `promisePoolJs`.
The format-text module is written only when absent or when overwriting was
requested; the other seven are always written, in source order. -/
def _write_cli_modules (fmtTemplate : List Char → List Char)
    (writerJs serializeJs argsJs bannerJs replJs helpJs promisePoolJs : List Char)
    (store : Store) (format_text_code : List Char) (overwrite_format_text : Bool) : Store :=
  let store1 :=
    if (lookupStore store fmtPath).isNone || overwrite_format_text then
      writeStore fmtPath (fmtTemplate (pyStrip format_text_code)) store
    else store
  let store2 := writeStore writerPath writerJs store1
  let store3 := writeStore serializePath serializeJs store2
  let store4 := writeStore argsPath argsJs store3
  let store5 := writeStore bannerPath bannerJs store4
  let store6 := writeStore replPath replJs store5
  let store7 := writeStore helpPath helpJs store6
  writeStore promisePoolPath promisePoolJs store7

/-- Outcome of the orchestrator phase: the `return 2` wrong-directory exit,
an uncaught read error, a propagated `PatchError`, or the resulting store. -/
inductive RunResult where
  | wrongDir : RunResult
  | readError : RunResult
  | failed : PatchError → RunResult
  | done : Store → RunResult

/-- Lines 1368-1374: the missing-module check, the `_write_cli_modules` call
(with the `or`-fallback code and the effective overwrite flag) and the
wholesale overwrite of `src/index.js` with the new entrypoint template
`newIndexJs` (`_write_new_index_js`, lines 863-959, a constant taken as a
parameter). -/
def main_after_extract (fmtTemplate : List Char → List Char)
    (writerJs serializeJs argsJs bannerJs replJs helpJs promisePoolJs newIndexJs : List Char)
    (store1 : Store) (fmtExists overwrite_cli_format : Bool)
    (format_text_code : List Char) : RunResult :=
  if !fmtExists && format_text_code.isEmpty then
    .failed ⟨"src/cli/format-text.js missing and could not extract from src/index.js."⟩
  else
    .done (writeStore indexPath newIndexJs
      (_write_cli_modules fmtTemplate writerJs serializeJs argsJs bannerJs replJs helpJs
        promisePoolJs store1
        (if format_text_code.isEmpty then defaultFormatTextCode else format_text_code)
        (overwrite_cli_format || !fmtExists)))

/-- `main` up to and including the `src/index.js` overwrite
(lines 1336-1374): the wrong-directory precondition, the backup loop, the
keep-or-extract decision for the format-text module — extraction reading
`src/index.js` — and the module writes. -/
def main_extract_phase (fmtTemplate : List Char → List Char)
    (writerJs serializeJs argsJs bannerJs replJs helpJs promisePoolJs newIndexJs : List Char)
    (now : Timestamp) (no_backup overwrite_cli_format : Bool) (store : Store) : RunResult :=
  match lookupStore store indexPath with
  | none => .wrongDir
  | some _ =>
      let store1 := backupAll now (!no_backup) backupRelPaths store
      let fmtExists := (lookupStore store1 fmtPath).isSome
      if fmtExists && !overwrite_cli_format then
        main_after_extract fmtTemplate writerJs serializeJs argsJs bannerJs replJs helpJs
          promisePoolJs newIndexJs store1 fmtExists overwrite_cli_format []
      else
        match lookupStore store1 indexPath with
        | none => .readError
        | some index_js_old =>
            match _extract_format_text_function index_js_old with
            | .error e => .failed e
            | .ok code =>
                main_after_extract fmtTemplate writerJs serializeJs argsJs bannerJs replJs
                  helpJs promisePoolJs newIndexJs store1 fmtExists overwrite_cli_format code

theorem backup_lookup_other (now : Timestamp) (en : Bool) (p : List Char) (store : Store)
    (q : List Char) (hq : q ≠ p ++ (".bak.".toList ++ formatTs now)) :
    lookupStore ((_backup_file now en p store).2) q = lookupStore store q := by
  unfold _backup_file
  cases en with
  | false => rfl
  | true =>
      rw [if_neg (by simp)]
      cases hc : lookupStore store p with
      | none => rfl
      | some c =>
          show lookupStore
            ((withSuffix p (pathSuffix p ++ (".bak.".toList ++ formatTs now)), c) :: store) q =
              lookupStore store q
          rw [withSuffix_spec]
          show (if p ++ (".bak.".toList ++ formatTs now) = q then some c else lookupStore store q) =
            lookupStore store q
          rw [if_neg (fun he => hq he.symm)]

theorem lookup_backupAll (now : Timestamp) (en : Bool) (paths : List (List Char)) (q : List Char)
    (hq : ∀ p ∈ paths, q ≠ p ++ (".bak.".toList ++ formatTs now)) :
    ∀ store : Store, lookupStore (backupAll now en paths store) q = lookupStore store q := by
  induction paths with
  | nil => intro store; rfl
  | cons p rest ih =>
      intro store
      show lookupStore (backupAll now en rest _) q = _
      rw [ih (fun p' hp' => hq p' (List.mem_cons_of_mem _ hp'))]
      by_cases hx : (lookupStore store p).isSome
      · rw [if_pos hx, backup_lookup_other now en p store q (hq p (List.mem_cons_self p rest))]
      · rw [if_neg hx]

theorem ne_append_of_getElem (q p r : List Char) (k : Nat) (hk : k < p.length)
    (h : q[k]? ≠ p[k]?) : q ≠ p ++ r := by
  intro he
  apply h
  rw [he, List.getElem?_append, if_pos hk]

theorem ne_append_self (q : List Char) (a : Char) (r : List Char) : q ≠ q ++ (a :: r) := by
  intro he
  have hl := congrArg List.length he
  rw [List.length_append, List.length_cons] at hl
  omega

theorem pySlice_ne_nil (l : List Char) (a b : Nat) (hab : a < b) (hb : b ≤ l.length) :
    pySlice l a b ≠ [] := by
  intro hnil
  have hl : (pySlice l a b).length = 0 := by rw [hnil]; rfl
  rw [pySlice, List.length_drop, List.length_take] at hl
  omega

theorem findCandidate_le (D : List Char) (s r : Nat) (hc : findCandidate D s = some r) :
    s ≤ r := by
  unfold findCandidate at hc
  cases h1 : findSubFrom D fmtCand1 s with
  | some r' =>
      rw [h1] at hc
      cases hc
      exact (findSubFrom_some_spec D fmtCand1 s r h1).1
  | none =>
      rw [h1] at hc
      exact (findSubFrom_some_spec D fmtCand2 s r hc).1

theorem isPrefixOf_length_le (p l : List Char) (h : p.isPrefixOf l = true) :
    p.length ≤ l.length :=
  ((isPrefixOf_iff_pre p l).mp h).length_le

theorem extract_ok_ne_nil (D code : List Char)
    (h : _extract_format_text_function D = .ok code) : code ≠ [] := by
  cases hf : findSub D fmtStartPat with
  | none =>
      have hv : _extract_format_text_function D =
          .error ⟨"Could not find 'function formatText' in src/index.js (already refactored?)"⟩ := by
        simp [_extract_format_text_function, hf]
      rw [hv] at h
      simp at h
  | some s =>
      cases hc : findCandidate D s with
      | none =>
          have hv : _extract_format_text_function D =
              .error ⟨"Could not find 'return lines.join(\\n)' marker inside formatText()."⟩ := by
            simp [_extract_format_text_function, hf, hc]
          rw [hv] at h
          simp at h
      | some r =>
          have hsr : s ≤ r := findCandidate_le D s r hc
          cases he : findSubFrom D lfTermPat r with
          | some e =>
              have hv : _extract_format_text_function D = .ok (pySlice D s (e + 3)) := by
                simp [_extract_format_text_function, hf, hc, he]
              rw [hv] at h
              have hcode : pySlice D s (e + 3) = code := by
                injection h
              rcases findSubFrom_some_spec D lfTermPat r e he with ⟨hre, hpe, _⟩
              have hlen := isPrefixOf_length_le lfTermPat (D.drop e) hpe
              rw [List.length_drop] at hlen
              have hb : e + 3 ≤ D.length := by
                have h3 : lfTermPat.length = 3 := rfl
                omega
              rw [← hcode]
              exact pySlice_ne_nil D s (e + 3) (by omega) hb
          | none =>
              cases he2 : findSubFrom D crlfTermPat r with
              | some e =>
                  have hv : _extract_format_text_function D = .ok (pySlice D s (e + 4)) := by
                    simp [_extract_format_text_function, hf, hc, he, he2]
                  rw [hv] at h
                  have hcode : pySlice D s (e + 4) = code := by
                    injection h
                  rcases findSubFrom_some_spec D crlfTermPat r e he2 with ⟨hre, hpe, _⟩
                  have hlen := isPrefixOf_length_le crlfTermPat (D.drop e) hpe
                  rw [List.length_drop] at hlen
                  have hb : e + 4 ≤ D.length := by
                    have h5 : crlfTermPat.length = 5 := rfl
                    omega
                  rw [← hcode]
                  exact pySlice_ne_nil D s (e + 4) (by omega) hb
              | none =>
                  have hv : _extract_format_text_function D =
                      .error ⟨"Could not find the closing brace of formatText()."⟩ := by
                    simp [_extract_format_text_function, hf, hc, he, he2]
                  rw [hv] at h
                  simp at h

/-- C8: in every run needing extraction (the format-text module absent, or
overwrite forced), the formatText block is extracted from the pre-existing
content `old` of `src/index.js` strictly before `src/index.js` is
overwritten: an extraction failure on `old` aborts the run before any module
write, and on success the written format-text module is a function of `old`
alone — the pre-transformation state — while `src/index.js` ends up
overwritten with the new entrypoint. -/
theorem C8_extract_before_overwrite
    (fmtTemplate : List Char → List Char)
    (writerJs serializeJs argsJs bannerJs replJs helpJs promisePoolJs newIndexJs : List Char)
    (now : Timestamp) (no_backup overwrite_cli_format : Bool) (store : Store)
    (old : List Char)
    (hidx : lookupStore store indexPath = some old)
    (hneed : lookupStore store fmtPath = none ∨ overwrite_cli_format = true) :
    (∀ e, _extract_format_text_function old = .error e →
        main_extract_phase fmtTemplate writerJs serializeJs argsJs bannerJs replJs helpJs
          promisePoolJs newIndexJs now no_backup overwrite_cli_format store = .failed e) ∧
    (∀ code, _extract_format_text_function old = .ok code →
        ∃ out,
          main_extract_phase fmtTemplate writerJs serializeJs argsJs bannerJs replJs helpJs
            promisePoolJs newIndexJs now no_backup overwrite_cli_format store = .done out ∧
          lookupStore out fmtPath = some (_write_text_norm (fmtTemplate (pyStrip code))) ∧
          lookupStore out indexPath = some (_write_text_norm newIndexJs)) := by
  have hq_idx : ∀ p ∈ backupRelPaths, indexPath ≠ p ++ (".bak.".toList ++ formatTs now) := by
    intro p hp
    simp only [backupRelPaths, List.mem_cons, List.not_mem_nil, or_false] at hp
    rcases hp with rfl | rfl | rfl | rfl | rfl
    · exact ne_append_self indexPath '.' ("bak.".toList ++ formatTs now)
    · exact ne_append_of_getElem indexPath kernelPath _ 4 (by decide) (by decide)
    · exact ne_append_of_getElem indexPath pmPath _ 4 (by decide) (by decide)
    · exact ne_append_of_getElem indexPath navPath _ 4 (by decide) (by decide)
    · exact ne_append_of_getElem indexPath scanPath _ 4 (by decide) (by decide)
  have hq_fmt : ∀ p ∈ backupRelPaths, fmtPath ≠ p ++ (".bak.".toList ++ formatTs now) := by
    intro p hp
    simp only [backupRelPaths, List.mem_cons, List.not_mem_nil, or_false] at hp
    rcases hp with rfl | rfl | rfl | rfl | rfl
    · exact ne_append_of_getElem fmtPath indexPath _ 4 (by decide) (by decide)
    · exact ne_append_of_getElem fmtPath kernelPath _ 5 (by decide) (by decide)
    · exact ne_append_of_getElem fmtPath pmPath _ 5 (by decide) (by decide)
    · exact ne_append_of_getElem fmtPath navPath _ 4 (by decide) (by decide)
    · exact ne_append_of_getElem fmtPath scanPath _ 4 (by decide) (by decide)
  have hb_idx : lookupStore (backupAll now (!no_backup) backupRelPaths store) indexPath =
      some old := by
    rw [lookup_backupAll now (!no_backup) backupRelPaths indexPath hq_idx store]
    exact hidx
  have hb_fmt := lookup_backupAll now (!no_backup) backupRelPaths fmtPath hq_fmt store
  have hcond : ((lookupStore (backupAll now (!no_backup) backupRelPaths store) fmtPath).isSome
      && !overwrite_cli_format) = false := by
    rcases hneed with hmiss | hover
    · rw [hb_fmt, hmiss]
      rfl
    · rw [hover]
      simp
  have hwcond : ((lookupStore (backupAll now (!no_backup) backupRelPaths store) fmtPath).isNone
      || (overwrite_cli_format
        || !((lookupStore (backupAll now (!no_backup) backupRelPaths store) fmtPath).isSome)))
        = true := by
    rcases hneed with hmiss | hover
    · rw [hb_fmt, hmiss]
      rfl
    · rw [hover]
      simp
  constructor
  · intro e he
    simp [main_extract_phase, hidx, hcond, hb_idx, he]
  · intro code hok
    have hne := extract_ok_ne_nil old code hok
    have hie : code.isEmpty = false := by
      cases code with
      | nil => exact absurd rfl hne
      | cons a t => rfl
    refine ⟨writeStore indexPath newIndexJs
        (_write_cli_modules fmtTemplate writerJs serializeJs argsJs bannerJs replJs helpJs
          promisePoolJs (backupAll now (!no_backup) backupRelPaths store) code
          (overwrite_cli_format
            || !((lookupStore (backupAll now (!no_backup) backupRelPaths store) fmtPath).isSome))),
      ?_, ?_, ?_⟩
    · simp [main_extract_phase, main_after_extract, hidx, hcond, hb_idx, hok, hie]
    · rw [lookup_write_other indexPath newIndexJs fmtPath _ (by decide)]
      simp only [_write_cli_modules, hwcond, if_true]
      rw [lookup_write_other promisePoolPath promisePoolJs fmtPath _ (by decide),
        lookup_write_other helpPath helpJs fmtPath _ (by decide),
        lookup_write_other replPath replJs fmtPath _ (by decide),
        lookup_write_other bannerPath bannerJs fmtPath _ (by decide),
        lookup_write_other argsPath argsJs fmtPath _ (by decide),
        lookup_write_other serializePath serializeJs fmtPath _ (by decide),
        lookup_write_other writerPath writerJs fmtPath _ (by decide),
        lookup_write_self]
    · rw [lookup_write_self]

/-- C8 witness: a store holding only `src/index.js` (whose content is the
sample formatText document) with no format-text module: the run succeeds, the
format-text module holds the extracted block and `src/index.js` holds the new
entrypoint. -/
theorem C8_extract_before_overwrite_witness :
    ∃ out,
      main_extract_phase (fun l => l) "w".toList "s".toList "a".toList "b".toList "r".toList
          "h".toList "p".toList "n".toList ⟨2025, 10, 12, 0, 0, 0⟩ false false
          ((indexPath, sampleIndexJs) :: []) = .done out ∧
      lookupStore out fmtPath = some (_write_text_norm ((fun l => l) (pyStrip sampleIndexJs))) ∧
      lookupStore out indexPath = some (_write_text_norm "n".toList) :=
  (C8_extract_before_overwrite (fun l => l) "w".toList "s".toList "a".toList "b".toList
      "r".toList "h".toList "p".toList "n".toList ⟨2025, 10, 12, 0, 0, 0⟩ false false
      ((indexPath, sampleIndexJs) :: []) sampleIndexJs (by decide) (Or.inl (by decide))).2
    sampleIndexJs rfl
